import Mathlib

/-!
Verification development for the SolarPunk Alpha Bot repository.

The Python sources are shallowly embedded over exact rational arithmetic
(`ℚ` in place of Python floats / `decimal.Decimal`).  Code that can raise a
Python exception (division by zero during percentage normalization) is
embedded as an `Option`-returning function, `none` standing for a raised
exception.  External collaborators (the llama model, exchanges, the clock,
randomness) are abstracted as parameters; everything else follows the
source line by line:

  src/redistributor/donation_engine.py  - `distribute` and helpers
  src/trader/trade_executor.py          - `can_trade`,
                                          `calculate_trade_parameters`,
                                          `update_position`
  src/analyzer/ai_analyzer.py           - `analyze`, `ethical_check`
  src/main.py                           - `run_cycle` error boundary and the
                                          per-cycle opportunity loop
  src/ledger/public_ledger.py           - `log_error`
-/

/-- `Decimal(str(x)).quantize(Decimal('0.01'), rounding=ROUND_DOWN)` truncates
toward zero.  Integer part of a rational, rounded toward zero. -/
def truncTowardZero (x : ℚ) : ℤ := if 0 ≤ x then ⌊x⌋ else ⌈x⌉

/-- Truncation toward zero to `d` decimal places. -/
def truncDec (d : ℕ) (x : ℚ) : ℚ := ((truncTowardZero (x * 10 ^ d) : ℤ) : ℚ) / 10 ^ d

/-- Truncation toward zero to 2 decimal places (`Decimal('0.01')`, ROUND_DOWN). -/
def trunc2 (x : ℚ) : ℚ := truncDec 2 x

/-- Truncation toward zero to 6 decimal places (`Decimal('0.000001')`, ROUND_DOWN). -/
def trunc6 (x : ℚ) : ℚ := truncDec 6 x

/-! ## Donation engine (src/redistributor/donation_engine.py) -/

/-- One entry of `config['redistribution']['crisis_orgs']`. -/
structure OrgCfg where
  name : String
  wallet : String
  percentage : ℚ
  chain : String
deriving DecidableEq

/-- `config['redistribution']['split']`: the three top-level percentages. -/
structure SplitCfg where
  crisis : ℚ
  you : ℚ
  network : ℚ
deriving DecidableEq

/-- The slice of the configuration that `DonationEngine` reads. -/
structure RedistCfg where
  split : SplitCfg
  crisis_orgs : List OrgCfg
  min_donation : ℚ
  batch_donations : Bool
  your_wallet : String
  network_fund : String
deriving DecidableEq

/-- Allocation status strings used by the donation engine. -/
inductive AllocStatus where
  | PENDING
  | BATCHED
  | SIMULATED
  | CONFIRMED
  | FAILED
deriving DecidableEq

/-- One element of the list built by `distribute_to_crisis_orgs`. -/
structure CrisisAlloc where
  organization : String
  amount : ℚ
  chain : String
  wallet : String
  status : AllocStatus
deriving DecidableEq

/-- The dictionaries built by `distribute_to_your_wallet` /
`distribute_to_network` (`none` models the empty dict returned when the
wallet is not configured). -/
structure WalletAlloc where
  recipient : String
  amount : ℚ
  wallet : String
  status : AllocStatus
deriving DecidableEq

/-- The record returned by `create_distribution_record`.  For the
`profit <= 0` early return the distributions dict is empty:
`crisis = []`, `you = none`, `network = none`. -/
structure DistRecord where
  total_profit : ℚ
  crisis : List CrisisAlloc
  you : Option WalletAlloc
  network : Option WalletAlloc
deriving DecidableEq

/-- `execute_donation`: the placeholder implementation always reports
`status = 'CONFIRMED'`. -/
def execute_donation (d : CrisisAlloc) : CrisisAlloc :=
  { d with status := AllocStatus.CONFIRMED }

/-- `sum(org.get('percentage', 0) for org in orgs)`. -/
def orgsTotal (orgs : List OrgCfg) : ℚ :=
  (orgs.map (fun o => o.percentage)).sum

/-- The `for org in orgs` loop of `distribute_to_crisis_orgs`.
`total_percent` is fixed to the sum over the whole list, as in the source.
An org with `percentage <= 0` is skipped; otherwise
`org_amount = amount * (org_percent / total_percent)` divides by
`total_percent`, raising `ZeroDivisionError` (`none`) when it is zero;
an `org_amount` below `min_donation` is skipped (the source `continue`s);
otherwise the entry is appended with status `BATCHED` when
`batch_donations` is set, else `execute_donation` runs immediately. -/
def crisisLoop (min_donation : ℚ) (batch : Bool) (amount total_percent : ℚ) :
    List OrgCfg → Option (List CrisisAlloc)
  | [] => some []
  | org :: rest =>
    if org.percentage ≤ 0 then
      crisisLoop min_donation batch amount total_percent rest
    else if total_percent = 0 then
      none
    else
      if trunc2 (amount * (org.percentage / total_percent)) < min_donation then
        crisisLoop min_donation batch amount total_percent rest
      else
        (crisisLoop min_donation batch amount total_percent rest).map
          (fun tail =>
            (if batch then
               CrisisAlloc.mk org.name
                 (trunc2 (amount * (org.percentage / total_percent)))
                 org.chain org.wallet AllocStatus.BATCHED
             else
               execute_donation
                 (CrisisAlloc.mk org.name
                   (trunc2 (amount * (org.percentage / total_percent)))
                   org.chain org.wallet AllocStatus.PENDING)) :: tail)

/-- `DonationEngine.distribute_to_crisis_orgs`. -/
def distribute_to_crisis_orgs (cfg : RedistCfg) (amount : ℚ) :
    Option (List CrisisAlloc) :=
  crisisLoop cfg.min_donation cfg.batch_donations amount
    (orgsTotal cfg.crisis_orgs) cfg.crisis_orgs

/-- `DonationEngine.distribute_to_your_wallet`: empty dict when the wallet is
not configured, otherwise a `SIMULATED` allocation. -/
def distribute_to_your_wallet (cfg : RedistCfg) (amount : ℚ) :
    Option WalletAlloc :=
  if cfg.your_wallet = "" then none
  else some ⟨"Your Wallet", amount, cfg.your_wallet, AllocStatus.SIMULATED⟩

/-- `DonationEngine.distribute_to_network`: empty dict when the fund wallet is
not configured; both the Web3 and the non-Web3 branch end with
`status = 'SIMULATED'`. -/
def distribute_to_network (cfg : RedistCfg) (amount : ℚ) :
    Option WalletAlloc :=
  if cfg.network_fund = "" then none
  else some ⟨"SolarPunk Network Fund", amount, cfg.network_fund, AllocStatus.SIMULATED⟩

/-- The percentage-validation step of `distribute`: when
`abs(total - 100) > 0.01` the three percentages are normalized by
`(p / total) * 100`, which raises `ZeroDivisionError` (`none`) when
`total = 0`. -/
def normPercents (s : SplitCfg) : Option (ℚ × ℚ × ℚ) :=
  if |s.crisis + s.you + s.network - 100| ≤ 1/100 then
    some (s.crisis, s.you, s.network)
  else if s.crisis + s.you + s.network = 0 then none
  else
    some (s.crisis / (s.crisis + s.you + s.network) * 100,
          s.you / (s.crisis + s.you + s.network) * 100,
          s.network / (s.crisis + s.you + s.network) * 100)

/-- The bucket amounts of `distribute`: `profit * percent / 100`, truncated to
2 decimal places with ROUND_DOWN. -/
def bucketAmounts (s : SplitCfg) (profit : ℚ) : Option (ℚ × ℚ × ℚ) :=
  (normPercents s).map (fun cyn =>
    (trunc2 (profit * cyn.1 / 100), trunc2 (profit * cyn.2.1 / 100),
     trunc2 (profit * cyn.2.2 / 100)))

/-- `DonationEngine.distribute`.  `profit <= 0` returns the record with an
empty distributions dict without touching the percentages. -/
def distribute (cfg : RedistCfg) (profit : ℚ) : Option DistRecord :=
  if profit ≤ 0 then some ⟨profit, [], none, none⟩
  else
    (bucketAmounts cfg.split profit).bind (fun amounts =>
      (distribute_to_crisis_orgs cfg amounts.1).map (fun cs =>
        ⟨profit, cs, distribute_to_your_wallet cfg amounts.2.1,
         distribute_to_network cfg amounts.2.2⟩))

/-! ## Trade executor (src/trader/trade_executor.py) -/

/-- The analysis dict consumed by the trade executor (fields accessed via
`analysis.get(...)`). -/
structure Analysis where
  recommendation : String
  confidence : ℚ
  ethical_override : Bool
  position_size : ℚ
deriving DecidableEq

/-- The opportunity dict fields the trade executor reads. -/
structure Opportunity where
  symbol : String
  market_type : String
  current_price : ℚ
deriving DecidableEq

/-- The `Trade` dataclass (the `datetime` timestamp is abstracted to a day
index, which is all `can_trade`'s daily filter consumes). -/
structure Trade where
  symbol : String
  ttype : String
  quantity : ℚ
  price : ℚ
  day : ℕ
  status : String
deriving DecidableEq

/-- The trading-limit slice of the configuration plus
`config['bot']['risk_tolerance']` read by `main.run_cycle`. -/
structure TradingCfg where
  max_position_size : ℚ
  max_daily_trades : ℕ
  max_total_exposure : ℚ
  risk_tolerance : ℚ
deriving DecidableEq

/-- `self.positions.get(symbol, 0)` on the executor's position dict,
embedded as an association list. -/
def getPos : List (String × ℚ) → String → ℚ
  | [], _ => 0
  | (k, v) :: rest, s => if k = s then v else getPos rest s

/-- Python dict assignment `positions[symbol] = v`: replace the existing
binding, else append a new one. -/
def setPos : List (String × ℚ) → String → ℚ → List (String × ℚ)
  | [], s, v => [(s, v)]
  | (k, x) :: rest, s, v =>
    if k = s then (s, v) :: rest else (k, x) :: setPos rest s v

/-- `sum(abs(p) for p in self.positions.values())`. -/
def totalExposure (ps : List (String × ℚ)) : ℚ :=
  (ps.map (fun p => |p.2|)).sum

/-- The executor's mutable state: position dict and trade history. -/
structure ExecState where
  positions : List (String × ℚ)
  trade_history : List Trade
deriving DecidableEq

/-- `[t for t in self.trade_history if t.timestamp.date() == today and
t.status == 'EXECUTED']`. -/
def todayTrades (st : ExecState) (today : ℕ) : List Trade :=
  st.trade_history.filter (fun t => decide (t.day = today ∧ t.status = "EXECUTED"))

/-- `TradeExecutor.can_trade`: recommendation, confidence floor, ethical
override, per-symbol position cap, daily trade cap, total exposure cap. -/
def can_trade (cfg : TradingCfg) (st : ExecState) (today : ℕ)
    (opp : Opportunity) (a : Analysis) : Bool :=
  if a.recommendation = "HOLD" then false
  else if a.confidence < 5 then false
  else if a.ethical_override then false
  else if cfg.max_position_size ≤ |getPos st.positions opp.symbol| then false
  else if cfg.max_daily_trades ≤ (todayTrades st today).length then false
  else if cfg.max_total_exposure ≤ totalExposure st.positions then false
  else true

/-- The value dict returned by `calculate_trade_parameters`. -/
structure TradeParams where
  position_value : ℚ
  quantity : ℚ
  percentage_of_portfolio : ℚ
  confidence_multiplier : ℚ
deriving DecidableEq

/-- `TradeExecutor.calculate_trade_parameters`. -/
def calculate_trade_parameters (position_size confidence : ℚ)
    (max_position_size portfolio_value : ℚ) (price : ℚ)
    (market_type : String) : TradeParams :=
  let confidenceM := confidence / 10
  let adjusted_size := position_size * confidenceM
  let position_value := min (portfolio_value * adjusted_size) max_position_size
  let quantity := if 0 < price then position_value / price else 0
  let q := if market_type = "crypto" then trunc6 quantity else trunc2 quantity
  ⟨position_value, q, adjusted_size, confidenceM⟩

/-- `TradeExecutor.update_position`: insert 0 for a fresh symbol, then add the
quantity for a BUY and subtract it otherwise. -/
def update_position (ps : List (String × ℚ)) (t : Trade) : List (String × ℚ) :=
  let cur := getPos ps t.symbol
  if t.ttype = "BUY" then setPos ps t.symbol (cur + t.quantity)
  else setPos ps t.symbol (cur - t.quantity)

/-- The trade object built by `TradeExecutor.execute` and marked `EXECUTED`
by paper execution (the random ±0.1 % paper-fill price perturbation is not
modeled; no claim concerns the fill price). -/
def mkTrade (today : ℕ) (opp : Opportunity) (a : Analysis)
    (params : TradeParams) : Trade :=
  ⟨opp.symbol, a.recommendation, params.quantity, opp.current_price, today,
   "EXECUTED"⟩

/-- State update after an executed trade: `state.add_trade` /
`trade_history.append` and `update_position`. -/
def recordTrade (st : ExecState) (t : Trade) : ExecState :=
  ⟨update_position st.positions t, st.trade_history ++ [t]⟩

/-- `TradeExecutor.execute` for one opportunity inside the cycle loop of
`main.run_cycle`.  `sgate` abstracts `BotState.can_trade` (defined in
`core/state.py`, which is not part of the source tree); the executor's own
`can_trade` guards execution, a failed guard returns `None` and leaves the
state untouched. -/
def processOpp (portfolio : ℚ) (sgate : Opportunity → Bool) (cfg : TradingCfg)
    (today : ℕ) (st : ExecState) (oa : Opportunity × Analysis) :
    Option Trade × ExecState :=
  if sgate oa.1 && can_trade cfg st today oa.1 oa.2 then
    let params := calculate_trade_parameters oa.2.position_size
      oa.2.confidence cfg.max_position_size portfolio oa.1.current_price
      oa.1.market_type
    let t := mkTrade today oa.1 oa.2 params
    (some t, recordTrade st t)
  else (none, st)

/-- Step 2 of `main.run_cycle`: keep the opportunities whose analysis
confidence strictly exceeds `config.bot.risk_tolerance`. -/
def analyzedOpportunities (risk_tolerance : ℚ)
    (l : List (Opportunity × Analysis)) : List (Opportunity × Analysis) :=
  l.filter (fun oa => decide (risk_tolerance < oa.2.confidence))

/-- Step 3 of `main.run_cycle`: try each analyzed opportunity in order,
collecting the executed trades (`if trade: trades.append(trade)`) and
threading the executor state; an opportunity whose gate fails contributes
nothing and the loop moves on.  The guard is the one `processOpp` applies. -/
def tradeLoop (portfolio : ℚ) (sgate : Opportunity → Bool) (cfg : TradingCfg)
    (today : ℕ) : ExecState → List (Opportunity × Analysis) →
    List Trade × ExecState
  | st, [] => ([], st)
  | st, oa :: rest =>
    if sgate oa.1 && can_trade cfg st today oa.1 oa.2 then
      let t := mkTrade today oa.1 oa.2 (calculate_trade_parameters
        oa.2.position_size oa.2.confidence cfg.max_position_size portfolio
        oa.1.current_price oa.1.market_type)
      let r := tradeLoop portfolio sgate cfg today (recordTrade st t) rest
      (t :: r.1, r.2)
    else tradeLoop portfolio sgate cfg today st rest

/-- Steps 2-3 of `main.run_cycle` composed: the risk-tolerance filter
followed by the execution loop. -/
def runCycleTrades (portfolio : ℚ) (sgate : Opportunity → Bool)
    (cfg : TradingCfg) (today : ℕ) (st : ExecState)
    (l : List (Opportunity × Analysis)) : List Trade × ExecState :=
  tradeLoop portfolio sgate cfg today st
    (analyzedOpportunities cfg.risk_tolerance l)

/-! ## AI analyzer (src/analyzer/ai_analyzer.py) -/

/-- The fields `json.loads` must deliver for the success path of `analyze`. -/
structure ParsedAnalysis where
  recommendation : String
  confidence : ℚ
  position_size : ℚ
deriving DecidableEq

/-- The analysis dict `analyze` returns, restricted to the fields any caller
reads (`recommendation`, `confidence`, `ethical_override` via
`.get(..., False)`, and the `error` text of the fallback dicts). -/
structure AnalysisResult where
  recommendation : String
  confidence : ℚ
  ethical_override : Bool
  errorText : Option String
deriving DecidableEq

/-- Outcome of `initialize_model` plus the market-analysis model call, the
two operations of `analyze` that can raise: the model fails to load, the
call raises, or it returns raw text. -/
inductive ModelOutcome where
  | loadFail (e : String)
  | callFail (e : String)
  | output (text : String)
deriving DecidableEq

/-- The `concerning_phrases` list of `ethical_check`. -/
def concerningPhrases : List String :=
  ["exploit", "harm", "vulnerable", "unethical",
   "questionable", "concern", "avoid", "warning"]

/-- `needle` matches at the head of `hay`. -/
def headMatch : List Char → List Char → Bool
  | [], _ => true
  | _ :: _, [] => false
  | a :: as, b :: bs => a == b && headMatch as bs

/-- `needle in hay` on character lists (Python substring test). -/
def hasSub (needle : List Char) : List Char → Bool
  | [] => needle.isEmpty
  | c :: rest => headMatch needle (c :: rest) || hasSub needle rest

/-- `any(phrase in ethical_text.lower() for phrase in concerning_phrases)`. -/
def containsConcerning (text : String) : Bool :=
  concerningPhrases.any (fun p => hasSub p.toList (text.toList.map Char.toLower))

/-- `AIAnalyzer.ethical_check` reduced to its `passed` flag: a raised model
call fails safe (`passed = False`); otherwise the response text passes iff
no concerning phrase occurs in it. -/
def ethical_check (ethResp : Except String String) : Bool :=
  match ethResp with
  | Except.error _ => false
  | Except.ok text => !(containsConcerning text)

/-- The fallback dict of the outer `except` clause of `analyze`:
HOLD with confidence 0 and the error text. -/
def analyzeFallback (e : String) : AnalysisResult :=
  ⟨"HOLD", 0, false, some e⟩

/-- `AIAnalyzer.analyze` for one opportunity.  `parse` abstracts the
markdown-stripping plus `json.loads` block (its `Except.error` is the
`JSONDecodeError` path); `env` is the model-load / model-call outcome and
`ethResp` the ethical-check model call.  Every branch returns a dict:
load and call failures hit the outer `except`, a parse failure hits the
inner `except`, and a failed ethical check overwrites the recommendation
with HOLD / confidence 0 / `ethical_override = True`. -/
def analyze (parse : String → Except String ParsedAnalysis)
    (env : ModelOutcome) (ethResp : Except String String) : AnalysisResult :=
  match env with
  | ModelOutcome.loadFail e => analyzeFallback e
  | ModelOutcome.callFail e => analyzeFallback e
  | ModelOutcome.output text =>
    match parse text with
    | Except.error e => ⟨"HOLD", 0, false, some e⟩
    | Except.ok a =>
      if ethical_check ethResp then ⟨a.recommendation, a.confidence, false, none⟩
      else ⟨"HOLD", 0, true, none⟩

/-- The analysis sub-loop of `main.run_cycle`: `analyze` is applied to every
opportunity in order; one opportunity's oracle outcome never affects the
rest. -/
def analyzeAll (parse : String → Except String ParsedAnalysis) :
    List (ModelOutcome × Except String String) → List AnalysisResult
  | [] => []
  | (env, eth) :: rest => analyze parse env eth :: analyzeAll parse rest

/-! ## Cycle orchestrator error boundary (src/main.py, src/ledger/public_ledger.py) -/

/-- One row of the errors sheet written by `PublicLedger.log_error`:
`CycleID` and `Error` (timestamp and context omitted). -/
structure ErrorEntry where
  cycleId : String
  error : String
deriving DecidableEq

/-- The ledger state the orchestrator claims touch: the cycle-summary log and
the error log, both append-only. -/
structure Ledger where
  cycleLog : List String
  errorLog : List ErrorEntry
deriving DecidableEq

/-- `PublicLedger.log_error cycle_id error`: append one entry carrying the
cycle identifier and the error text. -/
def log_error (led : Ledger) (cid : String) (e : String) : Ledger :=
  { led with errorLog := led.errorLog ++ [⟨cid, e⟩] }

/-- `SolarAlphaBot.run_cycle`: the whole cycle body runs inside one
`try/except`.  The body's outcome is abstracted: `Except.ok none` is an
early return (no opportunities / no trades, `log_cycle` not reached),
`Except.ok (some s)` a completed cycle logging summary `s`, and
`Except.error e` any exception raised anywhere in the body, which the
handler routes to `log_error` with this cycle's identifier. -/
def run_cycle (cid : String) (body : Except String (Option String))
    (led : Ledger) : Ledger :=
  match body with
  | Except.ok none => led
  | Except.ok (some s) => { led with cycleLog := led.cycleLog ++ [s] }
  | Except.error e => log_error led cid e

/-- The scheduler loop of `SolarAlphaBot.run`: each tick runs `run_cycle`;
no cycle outcome stops the loop. -/
def runTicks : List (String × Except String (Option String)) → Ledger → Ledger
  | [], led => led
  | (cid, body) :: rest, led => runTicks rest (run_cycle cid body led)

/-! ## Truncation lemmas -/

theorem trunc2_le {x : ℚ} (hx : 0 ≤ x) : trunc2 x ≤ x := by
  have h2 : (0:ℚ) < 10 ^ 2 := by norm_num
  have hx2 : (0:ℚ) ≤ x * 10 ^ 2 := by positivity
  unfold trunc2 truncDec truncTowardZero
  rw [if_pos hx2, div_le_iff₀ h2]
  exact Int.floor_le (x * 10 ^ 2)

theorem trunc2_gt {x : ℚ} (hx : 0 ≤ x) : x - 1/100 < trunc2 x := by
  have h2 : (0:ℚ) < 10 ^ 2 := by norm_num
  have hx2 : (0:ℚ) ≤ x * 10 ^ 2 := by positivity
  unfold trunc2 truncDec truncTowardZero
  rw [if_pos hx2, lt_div_iff₀ h2]
  have h := Int.lt_floor_add_one (x * 10 ^ 2)
  have hpow : (10:ℚ) ^ 2 = 100 := by norm_num
  rw [hpow] at h ⊢
  linarith

theorem truncDec_zero (d : ℕ) : truncDec d 0 = 0 := by
  simp [truncDec, truncTowardZero]

theorem trunc2_eq_self {x : ℚ} {m : ℤ} (h : x * 100 = (m : ℚ)) :
    trunc2 x = x := by
  unfold trunc2 truncDec truncTowardZero
  have hpow : (10:ℚ) ^ 2 = 100 := by norm_num
  have h2 : x * 10 ^ 2 = (m : ℚ) := by rw [hpow, h]
  have h100 : ((10:ℚ) ^ 2) ≠ 0 := by norm_num
  rw [h2]
  by_cases hm : (0:ℚ) ≤ (m : ℚ)
  · rw [if_pos hm, Int.floor_intCast, eq_comm, eq_div_iff h100]
    exact h2
  · rw [if_neg hm, Int.ceil_intCast, eq_comm, eq_div_iff h100]
    exact h2

/-- C3: for every profit ≤ 0 (zero or negative), `distribute` returns a
distribution record with an empty allocations dict and `total_profit` equal
to the input profit, raising no exception (`some`, not `none`). -/
theorem distribute_nonpositive (cfg : RedistCfg) (profit : ℚ)
    (h : profit ≤ 0) :
    distribute cfg profit = some ⟨profit, [], none, none⟩ := by
  unfold distribute
  rw [if_pos h]

theorem distribute_nonpositive_witness :
    ((-5 : ℚ) ≤ 0 ∧
      distribute ⟨⟨50, 30, 20⟩, [], 1, true, "", ""⟩ (-5) =
        some ⟨-5, [], none, none⟩) ∧
    ((0 : ℚ) ≤ 0 ∧
      distribute ⟨⟨50, 30, 20⟩, [], 1, true, "", ""⟩ 0 =
        some ⟨0, [], none, none⟩) :=
  ⟨⟨by norm_num, distribute_nonpositive _ _ (by norm_num)⟩,
   ⟨le_refl 0, distribute_nonpositive _ _ (le_refl 0)⟩⟩

/-- C1 (amended): for every percentage triple with nonnegative entries
summing exactly to 100 and every profit ≥ 0, the three bucket amounts
computed by `distribute` are each the exact bucket share truncated toward
zero to 2 decimal places, their sum is ≤ profit, and profit minus the sum is
strictly less than 0.03. -/
theorem bucketAmounts_exact_split (s : SplitCfg) (p : ℚ)
    (hc : 0 ≤ s.crisis) (hy : 0 ≤ s.you) (hn : 0 ≤ s.network)
    (hsum : s.crisis + s.you + s.network = 100) (hp : 0 ≤ p) :
    bucketAmounts s p =
      some (trunc2 (p * s.crisis / 100), trunc2 (p * s.you / 100),
            trunc2 (p * s.network / 100)) ∧
    trunc2 (p * s.crisis / 100) + trunc2 (p * s.you / 100) +
      trunc2 (p * s.network / 100) ≤ p ∧
    p - (trunc2 (p * s.crisis / 100) + trunc2 (p * s.you / 100) +
      trunc2 (p * s.network / 100)) < 3/100 := by
  have habs : |s.crisis + s.you + s.network - 100| ≤ 1/100 := by
    rw [hsum]
    norm_num
  have hnorm : normPercents s = some (s.crisis, s.you, s.network) := by
    unfold normPercents
    rw [if_pos habs]
  have h1 : (0:ℚ) ≤ p * s.crisis / 100 := by positivity
  have h2 : (0:ℚ) ≤ p * s.you / 100 := by positivity
  have h3 : (0:ℚ) ≤ p * s.network / 100 := by positivity
  have hsh : p * s.crisis / 100 + p * s.you / 100 + p * s.network / 100 = p := by
    linear_combination (p / 100) * hsum
  refine ⟨?_, ?_, ?_⟩
  · unfold bucketAmounts
    rw [hnorm]
    rfl
  · have l1 := trunc2_le h1
    have l2 := trunc2_le h2
    have l3 := trunc2_le h3
    linarith
  · have g1 := trunc2_gt h1
    have g2 := trunc2_gt h2
    have g3 := trunc2_gt h3
    linarith

theorem bucketAmounts_exact_split_witness :
    ((0:ℚ) ≤ 50 ∧ (0:ℚ) ≤ 30 ∧ (0:ℚ) ≤ 20 ∧ (50 + 30 + 20 : ℚ) = 100 ∧
      (0:ℚ) ≤ 10) ∧
    bucketAmounts ⟨50, 30, 20⟩ 10 =
      some (trunc2 (10 * 50 / 100), trunc2 (10 * 30 / 100),
            trunc2 (10 * 20 / 100)) ∧
    trunc2 (10 * 50 / 100) + trunc2 (10 * 30 / 100) +
      trunc2 (10 * 20 / 100) ≤ 10 ∧
    (10:ℚ) - (trunc2 (10 * 50 / 100) + trunc2 (10 * 30 / 100) +
      trunc2 (10 * 20 / 100)) < 3/100 :=
  ⟨⟨by norm_num, by norm_num, by norm_num, by norm_num, by norm_num⟩,
   bucketAmounts_exact_split ⟨50, 30, 20⟩ 10 (by norm_num) (by norm_num)
     (by norm_num) (by norm_num) (by norm_num)⟩

/-- C1 counterexample: the percentage triple (40, 40, 20.01) sums to 100.01,
within the 0.01 tolerance, and at profit 10000 the three bucket amounts are
4000, 4000 and 2001, whose sum 10001 exceeds the profit — refuting
"sum of buckets ≤ profit" for within-tolerance triples. -/
theorem bucketAmounts_tolerance_overshoot :
    |(40 + 40 + 2001/100 : ℚ) - 100| ≤ 1/100 ∧ (0:ℚ) ≤ 10000 ∧
    bucketAmounts ⟨40, 40, 2001/100⟩ 10000 = some (4000, 4000, 2001) ∧
    ¬ ((4000 : ℚ) + 4000 + 2001 ≤ 10000) := by
  have habs : |(40 + 40 + 2001/100 : ℚ) - 100| ≤ 1/100 := by
    rw [abs_le]
    constructor <;> norm_num
  refine ⟨habs, by norm_num, ?_, by norm_num⟩
  have hnorm : normPercents ⟨40, 40, 2001/100⟩ = some (40, 40, 2001/100) := by
    unfold normPercents
    rw [if_pos habs]
  unfold bucketAmounts
  rw [hnorm, Option.map_some']
  norm_num
  exact ⟨trunc2_eq_self (m := 400000) (by norm_num),
         trunc2_eq_self (m := 200100) (by norm_num)⟩

/-- C2 (amended): for every configuration whose three top-level percentages
do not sum to 100 within the 0.01 tolerance and whose percentage total is
nonzero, `distribute` normalizes the three percentages proportionally
(`(p / total) * 100`) so they sum to 100 before computing the bucket
amounts; in particular for percentages {40, 40, 40} each normalized
percentage equals 100/3 and each bucket equals profit/3 truncated to 2
decimals.  (With a zero total, e.g. {0, 0, 0}, the normalization divides by
zero instead of succeeding silently.) -/
theorem normPercents_normalizes (s : SplitCfg) (p : ℚ)
    (h1 : ¬ |s.crisis + s.you + s.network - 100| ≤ 1/100)
    (h2 : s.crisis + s.you + s.network ≠ 0) :
    (normPercents s = some
        (s.crisis / (s.crisis + s.you + s.network) * 100,
         s.you / (s.crisis + s.you + s.network) * 100,
         s.network / (s.crisis + s.you + s.network) * 100) ∧
      s.crisis / (s.crisis + s.you + s.network) * 100 +
        s.you / (s.crisis + s.you + s.network) * 100 +
        s.network / (s.crisis + s.you + s.network) * 100 = 100 ∧
      bucketAmounts s p = some
        (trunc2 (p * (s.crisis / (s.crisis + s.you + s.network) * 100) / 100),
         trunc2 (p * (s.you / (s.crisis + s.you + s.network) * 100) / 100),
         trunc2 (p * (s.network / (s.crisis + s.you + s.network) * 100) / 100))) ∧
    (normPercents ⟨40, 40, 40⟩ = some (100/3, 100/3, 100/3) ∧
      bucketAmounts ⟨40, 40, 40⟩ p =
        some (trunc2 (p / 3), trunc2 (p / 3), trunc2 (p / 3))) := by
  have hn : normPercents s = some
      (s.crisis / (s.crisis + s.you + s.network) * 100,
       s.you / (s.crisis + s.you + s.network) * 100,
       s.network / (s.crisis + s.you + s.network) * 100) := by
    unfold normPercents
    rw [if_neg h1, if_neg h2]
  have hsum100 : s.crisis / (s.crisis + s.you + s.network) * 100 +
      s.you / (s.crisis + s.you + s.network) * 100 +
      s.network / (s.crisis + s.you + s.network) * 100 = 100 := by
    field_simp
    ring
  have hb : bucketAmounts s p = some
      (trunc2 (p * (s.crisis / (s.crisis + s.you + s.network) * 100) / 100),
       trunc2 (p * (s.you / (s.crisis + s.you + s.network) * 100) / 100),
       trunc2 (p * (s.network / (s.crisis + s.you + s.network) * 100) / 100)) := by
    unfold bucketAmounts
    rw [hn]
    rfl
  have h140 : ¬ |(40:ℚ) + 40 + 40 - 100| ≤ 1/100 := by
    rw [show ((40:ℚ) + 40 + 40 - 100) = 20 from by norm_num,
        abs_of_nonneg (by norm_num : (0:ℚ) ≤ 20)]
    norm_num
  have hn40 : normPercents ⟨40, 40, 40⟩ = some (100/3, 100/3, 100/3) := by
    simp only [normPercents]
    rw [if_neg h140, if_neg (by norm_num : ((40:ℚ) + 40 + 40) ≠ 0)]
    norm_num
  have hb40 : bucketAmounts ⟨40, 40, 40⟩ p =
      some (trunc2 (p * (100/3) / 100), trunc2 (p * (100/3) / 100),
            trunc2 (p * (100/3) / 100)) := by
    unfold bucketAmounts
    rw [hn40]
    rfl
  have harg : p * ((100:ℚ)/3) / 100 = p / 3 := by ring
  rw [harg] at hb40
  exact ⟨⟨hn, hsum100, hb⟩, hn40, hb40⟩

theorem normPercents_normalizes_witness :
    (¬ |(40:ℚ) + 40 + 40 - 100| ≤ 1/100) ∧ ((40:ℚ) + 40 + 40 ≠ 0) ∧
    normPercents ⟨40, 40, 40⟩ = some (100/3, 100/3, 100/3) ∧
    bucketAmounts ⟨40, 40, 40⟩ 10 =
      some (trunc2 ((10:ℚ) / 3), trunc2 ((10:ℚ) / 3), trunc2 ((10:ℚ) / 3)) := by
  have h1 : ¬ |(40:ℚ) + 40 + 40 - 100| ≤ 1/100 := by
    rw [show ((40:ℚ) + 40 + 40 - 100) = 20 from by norm_num,
        abs_of_nonneg (by norm_num : (0:ℚ) ≤ 20)]
    norm_num
  have h2 : ((40:ℚ) + 40 + 40) ≠ 0 := by norm_num
  have h := normPercents_normalizes ⟨40, 40, 40⟩ 10 h1 h2
  exact ⟨h1, h2, h.2.1, h.2.2⟩

/-- C2 counterexample: with top-level percentages {0, 0, 0} (sum 0, outside
the tolerance) and profit 1, `distribute` does not silently normalize: it
divides by the zero total and raises (`none`), refuting "normalizes … without
raising an error" for every out-of-tolerance configuration. -/
theorem distribute_zero_split_raises :
    (¬ |(0:ℚ) + 0 + 0 - 100| ≤ 1/100) ∧
    distribute ⟨⟨0, 0, 0⟩, [], 1, true, "", ""⟩ 1 = none := by
  have h1 : ¬ |(0:ℚ) + 0 + 0 - 100| ≤ 1/100 := by
    rw [show ((0:ℚ) + 0 + 0 - 100) = -100 from by norm_num,
        abs_of_nonpos (by norm_num : (-100:ℚ) ≤ 0)]
    norm_num
  refine ⟨h1, ?_⟩
  have hn : normPercents ⟨0, 0, 0⟩ = none := by
    simp only [normPercents]
    rw [if_neg h1, if_pos (by norm_num : ((0:ℚ) + 0 + 0) = 0)]
  unfold distribute
  rw [if_neg (by norm_num : ¬ (1:ℚ) ≤ 0)]
  unfold bucketAmounts
  rw [hn]
  rfl

theorem crisisLoop_total (m : ℚ) (b : Bool) (a tp : ℚ) (l : List OrgCfg)
    (h : tp ≠ 0 ∨ ∀ o ∈ l, o.percentage ≤ 0) :
    (crisisLoop m b a tp l).isSome := by
  induction l with
  | nil => simp [crisisLoop]
  | cons org rest ih =>
    have hrest : tp ≠ 0 ∨ ∀ o ∈ rest, o.percentage ≤ 0 := by
      rcases h with h | h
      · exact Or.inl h
      · exact Or.inr fun o ho => h o (List.mem_cons_of_mem _ ho)
    have ihr := ih hrest
    unfold crisisLoop
    by_cases hp : org.percentage ≤ 0
    · rw [if_pos hp]
      exact ihr
    · rw [if_neg hp]
      have htp : tp ≠ 0 := by
        rcases h with h | h
        · exact h
        · exact absurd (h org (List.mem_cons_self org rest)) hp
      rw [if_neg htp]
      by_cases hm : trunc2 (a * (org.percentage / tp)) < m
      · rw [if_pos hm]
        exact ihr
      · rw [if_neg hm]
        rcases Option.isSome_iff_exists.mp ihr with ⟨tl, htl⟩
        rw [htl]
        rfl

/-- C5 (amended): `distribute` returns normally (no exception) for every
profit and every configuration, provided the division the defensive
normalization performs is well defined: the three top-level percentages must
not sum to 0 (unless profit ≤ 0, which returns early), and the crisis-org
percentages must not sum to 0 while some org has a positive percentage.
With an all-zero split, or org percentages summing to 0 with one positive,
a `ZeroDivisionError` is raised instead. -/
theorem distribute_total_when_divisors_nonzero (cfg : RedistCfg) (profit : ℚ)
    (h1 : cfg.split.crisis + cfg.split.you + cfg.split.network ≠ 0 ∨
      profit ≤ 0)
    (h2 : orgsTotal cfg.crisis_orgs ≠ 0 ∨
      (∀ o ∈ cfg.crisis_orgs, o.percentage ≤ 0) ∨ profit ≤ 0) :
    (distribute cfg profit).isSome := by
  by_cases hp : profit ≤ 0
  · unfold distribute
    rw [if_pos hp]
    rfl
  · have h1' : cfg.split.crisis + cfg.split.you + cfg.split.network ≠ 0 :=
      h1.resolve_right hp
    have h2' : orgsTotal cfg.crisis_orgs ≠ 0 ∨
        ∀ o ∈ cfg.crisis_orgs, o.percentage ≤ 0 := by
      rcases h2 with h | h | h
      exacts [Or.inl h, Or.inr h, absurd h hp]
    have hb : (normPercents cfg.split).isSome := by
      unfold normPercents
      by_cases ht : |cfg.split.crisis + cfg.split.you + cfg.split.network
          - 100| ≤ 1/100
      · rw [if_pos ht]
        rfl
      · rw [if_neg ht, if_neg h1']
        rfl
    rcases Option.isSome_iff_exists.mp hb with ⟨cyn, hcyn⟩
    have hbam : bucketAmounts cfg.split profit = some
        (trunc2 (profit * cyn.1 / 100), trunc2 (profit * cyn.2.1 / 100),
         trunc2 (profit * cyn.2.2 / 100)) := by
      unfold bucketAmounts
      rw [hcyn]
      rfl
    have hcs := crisisLoop_total cfg.min_donation cfg.batch_donations
      (trunc2 (profit * cyn.1 / 100)) (orgsTotal cfg.crisis_orgs)
      cfg.crisis_orgs h2'
    rcases Option.isSome_iff_exists.mp hcs with ⟨cs, hcse⟩
    unfold distribute
    rw [if_neg hp, hbam]
    simp only [Option.some_bind]
    unfold distribute_to_crisis_orgs
    rw [hcse]
    rfl

theorem distribute_total_witness :
    (((50:ℚ) + 30 + 20 ≠ 0 ∨ (7:ℚ) ≤ 0) ∧
      ((100:ℚ) ≠ 0 ∨
        (∀ o ∈ [OrgCfg.mk "WCK" "0x1" 100 "ethereum"], o.percentage ≤ 0) ∨
        (7:ℚ) ≤ 0)) ∧
    (distribute ⟨⟨50, 30, 20⟩, [⟨"WCK", "0x1", 100, "ethereum"⟩],
      1, true, "0xme", "0xfund"⟩ 7).isSome := by
  have h1 : ((50:ℚ) + 30 + 20 ≠ 0 ∨ (7:ℚ) ≤ 0) := Or.inl (by norm_num)
  have h2o : orgsTotal [OrgCfg.mk "WCK" "0x1" 100 "ethereum"] = 100 := by
    norm_num [orgsTotal]
  refine ⟨⟨h1, Or.inl (by norm_num)⟩, ?_⟩
  refine distribute_total_when_divisors_nonzero _ 7 h1 (Or.inl ?_)
  rw [h2o]
  norm_num

/-- C5 counterexample: with a valid 50/30/20 top split but crisis orgs whose
percentages are {5, −5} (sum 0, one positive), `distribute` at profit 100
divides by the zero org total inside `distribute_to_crisis_orgs` and raises
(`none`), refuting "never raises for any percentage configuration". -/
theorem distribute_org_percent_zero_raises :
    distribute ⟨⟨50, 30, 20⟩,
      [⟨"OrgA", "0xa", 5, "ethereum"⟩, ⟨"OrgB", "0xb", -5, "ethereum"⟩],
      1, true, "", ""⟩ 100 = none := by
  have habs : |(50:ℚ) + 30 + 20 - 100| ≤ 1/100 := by
    rw [show ((50:ℚ) + 30 + 20 - 100) = 0 from by norm_num, abs_zero]
    norm_num
  have hn : normPercents ⟨50, 30, 20⟩ = some (50, 30, 20) := by
    simp only [normPercents]
    rw [if_pos habs]
  have hbam : bucketAmounts ⟨50, 30, 20⟩ 100 = some
      (trunc2 (100 * 50 / 100), trunc2 (100 * 30 / 100),
       trunc2 (100 * 20 / 100)) := by
    unfold bucketAmounts
    rw [hn]
    rfl
  have htot : orgsTotal
      [⟨"OrgA", "0xa", 5, "ethereum"⟩, ⟨"OrgB", "0xb", -5, "ethereum"⟩] = 0 := by
    norm_num [orgsTotal]
  have hcl : crisisLoop 1 true (trunc2 (100 * 50 / 100)) 0
      [⟨"OrgA", "0xa", 5, "ethereum"⟩, ⟨"OrgB", "0xb", -5, "ethereum"⟩] =
      none := by
    unfold crisisLoop
    rw [if_neg (by norm_num : ¬ (5:ℚ) ≤ 0), if_pos rfl]
  unfold distribute
  rw [if_neg (by norm_num : ¬ (100:ℚ) ≤ 0), hbam]
  simp only [Option.some_bind]
  unfold distribute_to_crisis_orgs
  rw [htot, hcl]
  rfl

/-- C4: evaluation of the embedded `distribute_to_crisis_orgs` at the failing
input.  Batching is enabled and `min_donation = 1`; two orgs split a $1
crisis bucket 50/50, so each sub-amount truncates to $0.50 < $1.  The spec
says such sub-allocations are marked BATCHED (deferred, not dropped), and
the source's own comment says "Batch with other small donations", but the
code `continue`s: the result is empty — both allocations are dropped.  With
a $10 bucket the amounts ($5 each) clear the threshold and are BATCHED, so
the batching flag only ever applies to above-threshold allocations. -/
theorem below_min_allocation_dropped :
    distribute_to_crisis_orgs ⟨⟨50, 30, 20⟩,
      [⟨"OrgA", "0xa", 50, "ethereum"⟩, ⟨"OrgB", "0xb", 50, "ethereum"⟩],
      1, true, "", ""⟩ 1 = some [] ∧
    distribute_to_crisis_orgs ⟨⟨50, 30, 20⟩,
      [⟨"OrgA", "0xa", 50, "ethereum"⟩, ⟨"OrgB", "0xb", 50, "ethereum"⟩],
      1, true, "", ""⟩ 10 = some
      [⟨"OrgA", 5, "ethereum", "0xa", AllocStatus.BATCHED⟩,
       ⟨"OrgB", 5, "ethereum", "0xb", AllocStatus.BATCHED⟩] := by
  have e0 : trunc2 ((1:ℚ)/2) = 1/2 := trunc2_eq_self (m := 50) (by norm_num)
  have e5 : trunc2 ((5:ℚ)) = 5 := trunc2_eq_self (m := 500) (by norm_num)
  constructor <;>
    norm_num [distribute_to_crisis_orgs, crisisLoop, orgsTotal, e0, e5]

/-- C6: the position sizer computes
`adjustedFraction = suggestedFraction * (confidence / 10)`,
`positionValue = min (portfolioValue * adjustedFraction) maxPositionValue`,
and `quantity = positionValue / price`, with `price ≤ 0` yielding quantity 0
and no division; the quantity is truncated toward zero to 6 decimal places
for crypto markets and 2 otherwise; and confidence 10, fraction 0.05,
portfolio 1000, max 100 give positionValue 50. -/
theorem calculate_trade_parameters_spec (position_size confidence : ℚ)
    (maxP portfolio price : ℚ) (mt : String) :
    (calculate_trade_parameters position_size confidence maxP portfolio
        price mt).position_value =
      min (portfolio * (position_size * (confidence / 10))) maxP ∧
    (price ≤ 0 →
      (calculate_trade_parameters position_size confidence maxP portfolio
        price mt).quantity = 0) ∧
    (0 < price → mt = "crypto" →
      (calculate_trade_parameters position_size confidence maxP portfolio
        price mt).quantity =
        trunc6 (min (portfolio * (position_size * (confidence / 10))) maxP
          / price)) ∧
    (0 < price → mt ≠ "crypto" →
      (calculate_trade_parameters position_size confidence maxP portfolio
        price mt).quantity =
        trunc2 (min (portfolio * (position_size * (confidence / 10))) maxP
          / price)) ∧
    (calculate_trade_parameters (5/100) 10 100 1000 price mt).position_value
      = 50 := by
  refine ⟨rfl, fun h => ?_, fun hpr hmt => ?_, fun hpr hmt => ?_, ?_⟩
  · simp only [calculate_trade_parameters]
    rw [if_neg (not_lt.mpr h)]
    by_cases hmt : mt = "crypto" <;>
      simp [hmt, trunc6, trunc2, truncDec_zero]
  · simp only [calculate_trade_parameters]
    rw [if_pos hpr, if_pos hmt]
  · simp only [calculate_trade_parameters]
    rw [if_pos hpr, if_neg hmt]
  · simp only [calculate_trade_parameters]
    rw [show ((1000:ℚ) * (5/100 * (10/10))) = 50 from by norm_num,
        min_eq_left (by norm_num : (50:ℚ) ≤ 100)]

theorem calculate_trade_parameters_witness :
    ((0:ℚ) < 2 ∧
      (calculate_trade_parameters (5/100) 10 100 1000 2 "crypto").quantity =
        trunc6 (min ((1000:ℚ) * (5/100 * (10/10))) 100 / 2)) ∧
    ((0:ℚ) ≤ 0 ∧
      (calculate_trade_parameters (5/100) 10 100 1000 0 "stock").quantity
        = 0) ∧
    (calculate_trade_parameters (5/100) 10 100 1000 2 "crypto").position_value
      = 50 :=
  ⟨⟨by norm_num,
    (calculate_trade_parameters_spec (5/100) 10 100 1000 2 "crypto").2.2.1
      (by norm_num) rfl⟩,
   ⟨le_refl 0,
    (calculate_trade_parameters_spec (5/100) 10 100 1000 0 "stock").2.1
      (le_refl 0)⟩,
   (calculate_trade_parameters_spec (5/100) 10 100 1000 2 "crypto").2.2.2.2⟩

/-- C8: if the body of a cycle raises any error, `run_cycle` catches it,
appends exactly one error-log entry carrying this cycle's identifier and the
error text via the ledger's `log_error`, returns normally, and the scheduler
proceeds to the next tick on the resulting state. -/
theorem run_cycle_error_boundary (cid e : String) (led : Ledger)
    (rest : List (String × Except String (Option String))) :
    (run_cycle cid (Except.error e) led).errorLog =
      led.errorLog ++ [⟨cid, e⟩] ∧
    (run_cycle cid (Except.error e) led).errorLog.length =
      led.errorLog.length + 1 ∧
    (run_cycle cid (Except.error e) led).cycleLog = led.cycleLog ∧
    runTicks ((cid, Except.error e) :: rest) led =
      runTicks rest (run_cycle cid (Except.error e) led) := by
  refine ⟨rfl, ?_, rfl, rfl⟩
  simp [run_cycle, log_error]

/-- C9: `analyze` never propagates a failure: model-load failure, model-call
failure and unparseable model output each yield a result with recommendation
HOLD and confidence 0; and in the per-cycle analysis loop a failing oracle
outcome for the head opportunity leaves the evaluation of all remaining
opportunities unchanged. -/
theorem analyze_degrades_to_hold
    (parse : String → Except String ParsedAnalysis)
    (ethResp : Except String String) (e pe text : String)
    (rest : List (ModelOutcome × Except String String)) :
    (analyze parse (ModelOutcome.loadFail e) ethResp = analyzeFallback e ∧
     analyze parse (ModelOutcome.callFail e) ethResp = analyzeFallback e ∧
     (analyzeFallback e).recommendation = "HOLD" ∧
     (analyzeFallback e).confidence = 0) ∧
    (parse text = Except.error pe →
      analyze parse (ModelOutcome.output text) ethResp =
        ⟨"HOLD", 0, false, some pe⟩) ∧
    analyzeAll parse ((ModelOutcome.loadFail e, ethResp) :: rest) =
      analyzeFallback e :: analyzeAll parse rest := by
  refine ⟨⟨rfl, rfl, rfl, rfl⟩, fun h => ?_, rfl⟩
  simp [analyze, h]

theorem analyze_degrades_witness :
    (fun _ : String =>
      (Except.error "bad json" : Except String ParsedAnalysis)) "x" =
      Except.error "bad json" ∧
    analyze (fun _ => Except.error "bad json") (ModelOutcome.output "x")
      (Except.ok "all good") = ⟨"HOLD", 0, false, some "bad json"⟩ :=
  ⟨rfl, (analyze_degrades_to_hold (fun _ => Except.error "bad json")
    (Except.ok "all good") "boom" "bad json" "x" []).2.1 rfl⟩

theorem getPos_setPos_self (ps : List (String × ℚ)) (k : String) (v : ℚ) :
    getPos (setPos ps k v) k = v := by
  induction ps with
  | nil => simp [setPos, getPos]
  | cons p rest ih =>
    obtain ⟨a, b⟩ := p
    by_cases h : a = k
    · simp [setPos, h, getPos]
    · simp [setPos, h, getPos, ih]

theorem getPos_setPos_other (ps : List (String × ℚ)) (k s : String) (v : ℚ)
    (h : s ≠ k) : getPos (setPos ps k v) s = getPos ps s := by
  induction ps with
  | nil => simp [setPos, getPos, Ne.symm h]
  | cons p rest ih =>
    obtain ⟨a, b⟩ := p
    by_cases hak : a = k
    · subst hak
      simp [setPos, getPos, Ne.symm h]
    · by_cases has : a = s <;> simp [setPos, hak, getPos, has, ih, h]

/-- C10: updating the position map after an executed trade changes only the
entry of the traded symbol — incremented by the trade quantity for a BUY,
decremented for a SELL — and leaves every other symbol's position
unchanged. -/
theorem update_position_frame (ps : List (String × ℚ)) (t : Trade)
    (s : String) :
    (t.ttype = "BUY" →
      getPos (update_position ps t) t.symbol =
        getPos ps t.symbol + t.quantity) ∧
    (t.ttype = "SELL" →
      getPos (update_position ps t) t.symbol =
        getPos ps t.symbol - t.quantity) ∧
    (s ≠ t.symbol → getPos (update_position ps t) s = getPos ps s) := by
  refine ⟨fun h => ?_, fun h => ?_, fun h => ?_⟩
  · unfold update_position
    rw [if_pos h, getPos_setPos_self]
  · have hb : ¬ t.ttype = "BUY" := by simp [h]
    unfold update_position
    rw [if_neg hb, getPos_setPos_self]
  · unfold update_position
    by_cases hb : t.ttype = "BUY"
    · rw [if_pos hb, getPos_setPos_other _ _ _ _ h]
    · rw [if_neg hb, getPos_setPos_other _ _ _ _ h]

theorem update_position_frame_witness :
    (Trade.mk "BTC" "BUY" 1 100 0 "EXECUTED").ttype = "BUY" ∧
    getPos (update_position [("BTC", 2)]
      ⟨"BTC", "BUY", 1, 100, 0, "EXECUTED"⟩) "BTC" =
      getPos [("BTC", 2)] "BTC" + 1 ∧
    "ETH" ≠ "BTC" ∧
    getPos (update_position [("BTC", 2)]
      ⟨"BTC", "BUY", 1, 100, 0, "EXECUTED"⟩) "ETH" =
      getPos [("BTC", 2)] "ETH" :=
  ⟨rfl,
   (update_position_frame [("BTC", 2)]
     ⟨"BTC", "BUY", 1, 100, 0, "EXECUTED"⟩ "ETH").1 rfl,
   by simp,
   (update_position_frame [("BTC", 2)]
     ⟨"BTC", "BUY", 1, 100, 0, "EXECUTED"⟩ "ETH").2.2 (by simp)⟩

/-- C7: a trade is executed for an opportunity only if the oracle's
confidence strictly exceeds the configured risk tolerance (enforced by the
analysis-stage filter every opportunity passes through), the oracle did not
set the ethical-override flag, and the per-symbol, per-day and
total-exposure caps are not reached (enforced by `can_trade`); an
opportunity whose gate fails is skipped — the loop result is exactly the
loop over the remaining opportunities — without aborting the cycle. -/
theorem trade_gating (portfolio : ℚ) (sgate : Opportunity → Bool)
    (cfg : TradingCfg) (today : ℕ) (st : ExecState) (opp : Opportunity)
    (a : Analysis) (t : Trade) (oa : Opportunity × Analysis)
    (rest l : List (Opportunity × Analysis)) :
    ((processOpp portfolio sgate cfg today st (opp, a)).1 = some t →
      a.ethical_override = false ∧
      |getPos st.positions opp.symbol| < cfg.max_position_size ∧
      (todayTrades st today).length < cfg.max_daily_trades ∧
      totalExposure st.positions < cfg.max_total_exposure) ∧
    (oa ∈ analyzedOpportunities cfg.risk_tolerance l →
      cfg.risk_tolerance < oa.2.confidence) ∧
    (sgate oa.1 = false ∨ can_trade cfg st today oa.1 oa.2 = false →
      tradeLoop portfolio sgate cfg today st (oa :: rest) =
        tradeLoop portfolio sgate cfg today st rest) ∧
    runCycleTrades portfolio sgate cfg today st l =
      tradeLoop portfolio sgate cfg today st
        (analyzedOpportunities cfg.risk_tolerance l) := by
  refine ⟨fun h => ?_, fun h => ?_, fun h => ?_, rfl⟩
  · by_cases hg : (sgate opp && can_trade cfg st today opp a) = true
    · have hct : can_trade cfg st today opp a = true :=
        (Bool.and_eq_true _ _).mp hg |>.2
      unfold can_trade at hct
      split_ifs at hct with c1 c2 c3 c4 c5 c6
      exact ⟨eq_false_of_ne_true c3, not_le.mp c4, not_le.mp c5, not_le.mp c6⟩
    · exfalso
      have : (processOpp portfolio sgate cfg today st (opp, a)).1 = none := by
        unfold processOpp
        rw [if_neg hg]
      rw [this] at h
      exact Option.noConfusion h
  · have hmem := List.mem_filter.mp h
    exact of_decide_eq_true hmem.2
  · have hcond : ¬ ((sgate oa.1 && can_trade cfg st today oa.1 oa.2) = true) := by
      rcases h with h | h <;> simp [h]
    conv_lhs => unfold tradeLoop
    rw [if_neg hcond]

theorem trade_gating_witness :
    ((⟨"BUY", 8, false, 5/100⟩ : Analysis).ethical_override = false ∧
      |getPos (⟨[], []⟩ : ExecState).positions "BTC-USD"| < (100:ℚ) ∧
      (todayTrades ⟨[], []⟩ 0).length < 3 ∧
      totalExposure (⟨[], []⟩ : ExecState).positions < (300:ℚ)) ∧
    tradeLoop 1000 (fun _ => true) ⟨100, 3, 300, 5⟩ 0 ⟨[], []⟩
      [(⟨"BTC-USD", "crypto", 100⟩, ⟨"BUY", 8, true, 5/100⟩)] =
      tradeLoop 1000 (fun _ => true) ⟨100, 3, 300, 5⟩ 0 ⟨[], []⟩ [] := by
  have hct : can_trade ⟨100, 3, 300, 5⟩ ⟨[], []⟩ 0 ⟨"BTC-USD", "crypto", 100⟩
      ⟨"BUY", 8, false, 5/100⟩ = true := by
    norm_num [can_trade, todayTrades, totalExposure, getPos,
      (by decide : ¬ "BUY" = "HOLD")]
  have hp : (processOpp 1000 (fun _ => true) ⟨100, 3, 300, 5⟩ 0 ⟨[], []⟩
      (⟨"BTC-USD", "crypto", 100⟩, ⟨"BUY", 8, false, 5/100⟩)).1 =
      some (mkTrade 0 ⟨"BTC-USD", "crypto", 100⟩ ⟨"BUY", 8, false, 5/100⟩
        (calculate_trade_parameters (5/100) 8 100 1000 100 "crypto")) := by
    unfold processOpp
    rw [if_pos (by simp [hct])]
  have hfail : can_trade ⟨100, 3, 300, 5⟩ ⟨[], []⟩ 0
      ⟨"BTC-USD", "crypto", 100⟩ ⟨"BUY", 8, true, 5/100⟩ = false := by
    norm_num [can_trade]
  exact ⟨(trade_gating 1000 (fun _ => true) ⟨100, 3, 300, 5⟩ 0 ⟨[], []⟩
      ⟨"BTC-USD", "crypto", 100⟩ ⟨"BUY", 8, false, 5/100⟩ _
      (⟨"BTC-USD", "crypto", 100⟩, ⟨"BUY", 8, false, 5/100⟩) [] []).1 hp,
    (trade_gating 1000 (fun _ => true) ⟨100, 3, 300, 5⟩ 0 ⟨[], []⟩
      ⟨"BTC-USD", "crypto", 100⟩ ⟨"BUY", 8, false, 5/100⟩
      (mkTrade 0 ⟨"BTC-USD", "crypto", 100⟩ ⟨"BUY", 8, false, 5/100⟩
        (calculate_trade_parameters (5/100) 8 100 1000 100 "crypto"))
      (⟨"BTC-USD", "crypto", 100⟩, ⟨"BUY", 8, true, 5/100⟩) [] []).2.2.1
      (Or.inr hfail)⟩
